import Mathlib

/-!
Verification development for the Food Concierge repository.

Shallow embedding of the two core Lambda handlers:
- `LF1` (`src/lambda-functions/LF1/index.mjs`): the Lex V2 code hook that
  validates dining-request slots turn by turn and, on fulfillment, enqueues
  the request and best-effort-saves user preferences.
- `LF2` (`src/lambda-functions/LF2/index.mjs`): the queue worker that pulls
  one work item, searches the index, picks up to three random restaurants,
  fetches details, emails the user, and acknowledges the item.

Machine-level behaviors (AWS SDK calls, HTTP, `Math.random`) are modelled
as explicit parameters: the random shuffle performed by
`sort(() => 0.5 - Math.random())` is an arbitrary permutation-producing
function, and fallible external calls are success/failure booleans whose
effects are recorded in an explicit trace.
-/

namespace FoodConcierge

/-! ## JavaScript primitive models -/

/-- JS truthiness for a nullable string slot value: `null` and `""` are falsy. -/
def truthy : Option String → Bool
  | none => false
  | some s => !(s = "")

/-- Numeric value of an ASCII digit character. -/
def digitVal (ch : Char) : Nat := ch.toNat - 48

/-- Model of JS `toLowerCase()` (ASCII range, which covers every key of
the alias table and cuisine list). -/
def jsToLower (s : String) : String := String.mk (s.data.map Char.toLower)

def trimChars (l : List Char) : List Char :=
  ((l.dropWhile Char.isWhitespace).reverse.dropWhile Char.isWhitespace).reverse

/-- Model of JS `trim()`: strip whitespace from both ends. -/
def jsTrim (s : String) : String := String.mk (trimChars s.data)

def digitsToNat (l : List Char) : Nat :=
  l.foldl (fun acc ch => 10 * acc + digitVal ch) 0

/-- Model of JS `parseInt(s, 10)`: skip leading whitespace, optional sign,
then the longest leading run of decimal digits; `none` models `NaN`. -/
def parseInt10 (s : String) : Option Int :=
  let t := trimChars s.data
  let sgn : Int := if t.head? = some '-' then -1 else 1
  let rest :=
    match t with
    | '-' :: r => r
    | '+' :: r => r
    | r => r
  let digits := rest.takeWhile Char.isDigit
  if digits.isEmpty then none else some (sgn * digitsToNat digits)

namespace LF1

/-! ## Configuration tables (LF1 lines 27-42) -/

def VALID_CUISINES : List String :=
  ["chinese", "japanese", "italian", "mexican", "indian", "thai"]

def LOCATION_ALIASES : List (String × String) :=
  [("manhattan", "manhattan"),
   ("new york", "manhattan"),
   ("new york city", "manhattan"),
   ("nyc", "manhattan"),
   ("ny", "manhattan"),
   ("brooklyn", "brooklyn"),
   ("queens", "queens"),
   ("bronx", "bronx"),
   ("the bronx", "bronx"),
   ("staten island", "staten island")]

/-- A truthy value the bracket read `LOCATION_ALIASES[key]` can produce:
either an own-property hit (a canonical location string from the alias
table) or an inherited `Object.prototype` member — a function or object,
truthy but not a location string. -/
inductive LookupHit where
  | str (s : String)
  | protoMember (key : String)
deriving DecidableEq

/-- The all-lowercase own property names of `Object.prototype`
(`constructor` and `__proto__`): since the lookup key has been passed
through `toLowerCase()`, these are the only inherited keys it can collide
with (every other member, e.g. `hasOwnProperty` or `toString`, contains an
uppercase letter).  Reading them on an object literal yields a truthy
inherited value: `constructor` is the `Object` function and `__proto__` is
`Object.prototype` itself. -/
def lowercaseProtoKeys : List String := ["constructor", "__proto__"]

/-- `normalizeLocation` (LF1 lines 48-52): lowercase and trim the raw
input, then evaluate `LOCATION_ALIASES[key] || null`.  The object literal
inherits from `Object.prototype`, so the bracket read checks the literal's
own properties (the alias table) first and then the prototype chain; the
inherited members reachable from an all-lowercase key (`constructor`,
`__proto__`) are truthy, so those keys also produce a non-null result.
`none` models the `null` returned for falsy input or a key hitting neither
the table nor an inherited member. -/
def normalizeLocation (raw : String) : Option LookupHit :=
  if raw = "" then none
  else
    let key := jsTrim (jsToLower raw)
    match LOCATION_ALIASES.lookup key with
    | some v => some (.str v)
    | none => if key ∈ lowercaseProtoKeys then some (.protoMember key) else none

/-! ## Calendar model

LF1 parses `diningDate + "T00:00:00"` with `new Date` and compares the
result against midnight today and today plus 90 days.  Dates are modelled
as proleptic-Gregorian day numbers; the ISO `YYYY-MM-DD` strings produced
by Lex are parsed with the same field-range validation `Date` applies to
ISO date-time strings. -/

def isLeap (y : Nat) : Bool := (y % 4 = 0 && !(y % 100 = 0)) || y % 400 = 0

def daysInMonth (y m : Nat) : Nat :=
  if m = 2 then (if isLeap y then 29 else 28)
  else if m = 4 || m = 6 || m = 9 || m = 11 then 30
  else 31

def monthOffset : Nat → Nat
  | 1 => 0 | 2 => 31 | 3 => 59 | 4 => 90 | 5 => 120 | 6 => 151
  | 7 => 181 | 8 => 212 | 9 => 243 | 10 => 273 | 11 => 304 | _ => 334

/-- Leap years among years `0, ..., y-1`, counting year 0 as a leap year. -/
def daysBeforeYear (y : Nat) : Nat :=
  365 * y + (y + 3) / 4 - (y + 99) / 100 + (y + 399) / 400

/-- Day number of a civil date (days since 0000-01-01). -/
def dayNumber (y m d : Nat) : Nat :=
  daysBeforeYear y + monthOffset m + (if 2 < m && isLeap y then 1 else 0) + (d - 1)

/-- Parse an ISO `YYYY-MM-DD` date string, validating month and day ranges
the way `new Date(s + "T00:00:00")` validates ISO strings; `none` models an
Invalid Date. -/
def parseDate (s : String) : Option (Nat × Nat × Nat) :=
  match s.data with
  | [y1, y2, y3, y4, sep1, m1, m2, sep2, d1, d2] =>
    if y1.isDigit && y2.isDigit && y3.isDigit && y4.isDigit && sep1 = '-' &&
       m1.isDigit && m2.isDigit && sep2 = '-' && d1.isDigit && d2.isDigit then
      let y := 1000 * digitVal y1 + 100 * digitVal y2 + 10 * digitVal y3 + digitVal y4
      let m := 10 * digitVal m1 + digitVal m2
      let d := 10 * digitVal d1 + digitVal d2
      if 1 ≤ m && m ≤ 12 && 1 ≤ d && d ≤ daysInMonth y m then some (y, m, d)
      else none
    else none
  | _ => none

/-- Parse a strict `HH:MM` string: models the regex `\d\d:\d\d` anchored at
both ends followed by `split(":").map(Number)` (LF1 lines 211-219). -/
def timeParse (s : String) : Option (Nat × Nat) :=
  match s.data with
  | [a, b, sep, d, e] =>
    if a.isDigit && b.isDigit && sep = ':' && d.isDigit && e.isDigit then
      some (10 * digitVal a + digitVal b, 10 * digitVal d + digitVal e)
    else none
  | _ => none

/-- The canonical two-digit rendering of `n ≤ 99`, used to quantify over
all syntactically well-formed `HH:MM` inputs. -/
def twoDigits (n : Nat) : String :=
  String.mk [Nat.digitChar (n / 10), Nat.digitChar (n % 10)]

/-- Left-pad the decimal representation of `n` with zeros to width `w`. -/
def padNum (w n : Nat) : String :=
  let s := Nat.repr n
  String.mk (List.replicate (w - s.length) '0' ++ s.data)

/-- ISO `YYYY-MM-DD` rendering of a civil date, as produced by
`toISOString().split("T")[0]`. -/
def formatDate (y m d : Nat) : String :=
  padNum 4 y ++ "-" ++ padNum 2 m ++ "-" ++ padNum 2 d

/-- The wall clock visible to one invocation of the dialog validator:
the current civil date plus the current hour and minute.  Both the date
check (LF1 line 176) and the time check (LF1 line 231) read `new Date()`
from this single system clock. -/
structure Clock where
  y : Nat
  m : Nat
  d : Nat
  nowH : Nat
  nowM : Nat
deriving DecidableEq

def today (c : Clock) : Nat := dayNumber c.y c.m c.d

/-- The `"YYYY-MM-DD"` string for today, `now.toISOString().split("T")[0]`. -/
def todayStr (c : Clock) : String := formatDate c.y c.m c.d

/-! ## Slot map and Lex responses -/

/-- The six slot values of `DiningSuggestionsIntent`, after `getSlotValue`
extraction (`none` models an unfilled slot). -/
structure Slots where
  location : Option String := none
  cuisine : Option String := none
  numberOfPeople : Option String := none
  diningDate : Option String := none
  diningTime : Option String := none
  email : Option String := none
deriving DecidableEq

/-- The slot fields, in the order `handleDialogValidation` checks them. -/
inductive Field
  | location | cuisine | numberOfPeople | diningDate | diningTime | email
deriving DecidableEq

def fieldName : Field → String
  | .location => "Location"
  | .cuisine => "Cuisine"
  | .numberOfPeople => "NumberOfPeople"
  | .diningDate => "DiningDate"
  | .diningTime => "DiningTime"
  | .email => "Email"

def getField (s : Slots) : Field → Option String
  | .location => s.location
  | .cuisine => s.cuisine
  | .numberOfPeople => s.numberOfPeople
  | .diningDate => s.diningDate
  | .diningTime => s.diningTime
  | .email => s.email

/-- `slots[slotToElicit] = null` (LF1 line 388). -/
def clearField (s : Slots) : Field → Slots
  | .location => { s with location := none }
  | .cuisine => { s with cuisine := none }
  | .numberOfPeople => { s with numberOfPeople := none }
  | .diningDate => { s with diningDate := none }
  | .diningTime => { s with diningTime := none }
  | .email => { s with email := none }

/-- Position of a field in the validation order. -/
def fieldIdx : Field → Nat
  | .location => 0
  | .cuisine => 1
  | .numberOfPeople => 2
  | .diningDate => 3
  | .diningTime => 4
  | .email => 5

def fieldOrder : List Field :=
  [.location, .cuisine, .numberOfPeople, .diningDate, .diningTime, .email]

/-- A Lex V2 code-hook response (the parts of the JSON object the claims
are about). -/
structure LexResponse where
  dialogActionType : String
  slotToElicit : Option String := none
  intentState : String
  slots : Slots
  messages : List String := []
deriving DecidableEq

/-- `buildElicitSlotResponse` (LF1 lines 386-405). -/
def buildElicitSlotResponse (s : Slots) (f : Field) (msg : String) : LexResponse :=
  { dialogActionType := "ElicitSlot"
    slotToElicit := some (fieldName f)
    intentState := "InProgress"
    slots := clearField s f
    messages := [msg] }

/-- `buildDelegateResponse` (LF1 lines 408-420). -/
def buildDelegateResponse (s : Slots) : LexResponse :=
  { dialogActionType := "Delegate"
    slotToElicit := none
    intentState := "InProgress"
    slots := s
    messages := [] }

/-- `buildFulfillmentResponse` (LF1 lines 370-383). -/
def buildFulfillmentResponse (s : Slots) (msg : String) : LexResponse :=
  { dialogActionType := "Close"
    slotToElicit := none
    intentState := "Fulfilled"
    slots := s
    messages := [msg] }

/-! ## Validation messages (LF1 lines 125-259) -/

def locationErrorMsg (location : String) : String :=
  "Sorry, we only serve the New York City area right now. \"" ++ location ++
  "\" isn\x27t in our coverage. Try Manhattan, Brooklyn, Queens, or just \"NYC\"."

/-- `c.charAt(0).toUpperCase() + c.slice(1)` (LF1 line 147). -/
def capitalizeFirst (s : String) : String :=
  match s.data with
  | [] => ""
  | ch :: rest => String.mk (ch.toUpper :: rest)

def cuisineErrorMsg (cuisine : String) : String :=
  "Hmm, I don\x27t have \"" ++ cuisine ++ "\" in my list yet. I can help with: " ++
  String.intercalate ", " (VALID_CUISINES.map capitalizeFirst) ++
  ". Which one sounds good?"

def partySizeErrorMsg : String :=
  "That doesn\x27t look right. How many people will be dining? Please enter a number (e.g., 2)."

def partySizeOverMsg : String :=
  "That\x27s a large party! For groups over 20, please contact the restaurant directly. " ++
  "How many people (1–20)?"

def dateFormatErrorMsg : String :=
  "I couldn\x27t understand that date. Could you try again? " ++
  "You can say \"today\", \"tomorrow\", or a date like \"March 5th\"."

def datePastMsg (diningDate : String) : String :=
  "That date (" ++ diningDate ++ ") is in the past! Please pick today or a future date."

def dateFarMsg : String :=
  "That\x27s quite far out! I can only take reservations up to 90 days ahead. " ++
  "Could you pick a closer date?"

def timeFormatErrorMsg : String :=
  "I couldn\x27t parse that time. Try something like \"7 pm\" or \"19:30\"."

def timeRangeMsg : String :=
  "Most restaurants are open between 6 AM and 11 PM. Could you pick a time in that range?"

def timePastMsg (diningTime : String) : String :=
  "It\x27s already past " ++ diningTime ++ " today! Please pick a later time, " ++
  "or choose a future date."

def emailErrorMsg : String :=
  "That doesn\x27t look like a valid email. Please enter an email like yourname@example.com."

/-- Model of `/^[^\s@]+@[^\s@]+\.[^\s@]+$/.test(email)` (LF1 line 250):
exactly one `@`, a nonempty whitespace-free local part, and a domain part
containing a dot that is neither its first nor its last character. -/
def emailOk (s : String) : Bool :=
  match s.data.splitOn '@' with
  | [p, q] =>
    !p.isEmpty && p.all (fun ch => !ch.isWhitespace) &&
    !q.isEmpty && q.all (fun ch => !ch.isWhitespace) &&
    ((q.drop 1).dropLast.contains '.')
  | _ => false

/-! ## Per-field validation checks

Each `check*` function mirrors one early-return block of
`handleDialogValidation` (LF1 lines 116-263): it returns
`some elicitResponse` when the block would `return`, and `none` when
control would fall through to the next block. -/

/-- LF1 lines 125-138. -/
def checkLocation (s : Slots) : Option LexResponse :=
  match s.location with
  | none => none
  | some location =>
    if location = "" then none
    else
      match normalizeLocation location with
      | none => some (buildElicitSlotResponse s .location (locationErrorMsg location))
      | some _ => none

/-- LF1 lines 141-151. -/
def checkCuisine (s : Slots) : Option LexResponse :=
  match s.cuisine with
  | none => none
  | some cuisine =>
    if cuisine = "" then none
    else if VALID_CUISINES.contains (jsTrim (jsToLower cuisine)) then none
    else some (buildElicitSlotResponse s .cuisine (cuisineErrorMsg cuisine))

/-- LF1 lines 154-171. -/
def checkNumberOfPeople (s : Slots) : Option LexResponse :=
  match s.numberOfPeople with
  | none => none
  | some numberOfPeople =>
    if numberOfPeople = "" then none
    else
      match parseInt10 numberOfPeople with
      | none => some (buildElicitSlotResponse s .numberOfPeople partySizeErrorMsg)
      | some num =>
        if num < 1 then some (buildElicitSlotResponse s .numberOfPeople partySizeErrorMsg)
        else if num > 20 then some (buildElicitSlotResponse s .numberOfPeople partySizeOverMsg)
        else none

/-- LF1 lines 174-207. -/
def checkDiningDate (c : Clock) (s : Slots) : Option LexResponse :=
  match s.diningDate with
  | none => none
  | some diningDate =>
    if diningDate = "" then none
    else
      match parseDate diningDate with
      | none => some (buildElicitSlotResponse s .diningDate dateFormatErrorMsg)
      | some (y, m, d) =>
        let requested := dayNumber y m d
        if requested < today c then
          some (buildElicitSlotResponse s .diningDate (datePastMsg diningDate))
        else if requested > today c + 90 then
          some (buildElicitSlotResponse s .diningDate dateFarMsg)
        else none

/-- LF1 lines 210-246. -/
def checkDiningTime (c : Clock) (s : Slots) : Option LexResponse :=
  match s.diningTime with
  | none => none
  | some diningTime =>
    if diningTime = "" then none
    else
      match timeParse diningTime with
      | none => some (buildElicitSlotResponse s .diningTime timeFormatErrorMsg)
      | some (hours, minutes) =>
        if hours < 6 || hours > 23 then
          some (buildElicitSlotResponse s .diningTime timeRangeMsg)
        else
          match s.diningDate with
          | none => none
          | some diningDate =>
            if diningDate = "" then none
            else if diningDate = todayStr c then
              if hours < c.nowH || (hours = c.nowH && minutes ≤ c.nowM) then
                some (buildElicitSlotResponse s .diningTime (timePastMsg diningTime))
              else none
            else none

/-- LF1 lines 249-259. -/
def checkEmail (s : Slots) : Option LexResponse :=
  match s.email with
  | none => none
  | some email =>
    if email = "" then none
    else if emailOk email then none
    else some (buildElicitSlotResponse s .email emailErrorMsg)

def check (c : Clock) (s : Slots) : Field → Option LexResponse
  | .location => checkLocation s
  | .cuisine => checkCuisine s
  | .numberOfPeople => checkNumberOfPeople s
  | .diningDate => checkDiningDate c s
  | .diningTime => checkDiningTime c s
  | .email => checkEmail s

/-- `handleDialogValidation` (LF1 lines 116-263): run the per-field checks
in source order; the first one that fires is returned (early return),
otherwise delegate back to Lex. -/
def handleDialogValidation (c : Clock) (s : Slots) : LexResponse :=
  (fieldOrder.findSome? (check c s)).getD (buildDelegateResponse s)

/-! ## Presence / validity predicates

`present` is JS truthiness of the slot (`if (location)` etc.); `fieldValidB`
is the validity test the corresponding block applies to a present value.
These restate the branch conditions of the `check*` functions so that
"some present field is invalid" can be said without mentioning responses. -/

def present (s : Slots) (f : Field) : Bool := truthy (getField s f)

def fieldValidB (c : Clock) (s : Slots) : Field → Bool
  | .location =>
    match getField s .location with
    | none => true
    | some v => (normalizeLocation v).isSome
  | .cuisine =>
    match getField s .cuisine with
    | none => true
    | some v => VALID_CUISINES.contains (jsTrim (jsToLower v))
  | .numberOfPeople =>
    match getField s .numberOfPeople with
    | none => true
    | some v =>
      match parseInt10 v with
      | none => false
      | some num => !(num < 1) && !(num > 20)
  | .diningDate =>
    match getField s .diningDate with
    | none => true
    | some v =>
      match parseDate v with
      | none => false
      | some (y, m, d) =>
        !(dayNumber y m d < today c) && !(dayNumber y m d > today c + 90)
  | .diningTime =>
    match getField s .diningTime with
    | none => true
    | some v =>
      match timeParse v with
      | none => false
      | some (hours, minutes) =>
        !(hours < 6 || hours > 23) &&
        (match getField s .diningDate with
         | none => true
         | some diningDate =>
           if diningDate = "" then true
           else if diningDate = todayStr c then
             !(hours < c.nowH || (hours = c.nowH && minutes ≤ c.nowM))
           else true)
  | .email =>
    match getField s .email with
    | none => true
    | some v => emailOk v

/-- A field is blocking when it is present (truthy) and fails its
validation rule. -/
def invalidB (c : Clock) (s : Slots) (f : Field) : Bool :=
  present s f && !fieldValidB c s f

/-- The first field, in validation order, that is present and invalid. -/
def firstInvalid? (c : Clock) (s : Slots) : Option Field :=
  fieldOrder.find? (invalidB c s)

/-! ## Fulfillment (LF1 lines 268-354)

External calls are modelled by an environment: whether `SQS_QUEUE_URL` is
set, whether the `sqsClient.send` call succeeds, and whether the DynamoDB
`PutItemCommand` inside `saveUserState` succeeds. -/

structure FulfillEnv where
  sqsQueueUrl : Option String
  sqsSendOk : Bool
  prefSaveOk : Bool
deriving DecidableEq

/-- `saveUserState` (LF1 lines 335-354): the DynamoDB put is wrapped in its
own try/catch whose catch only logs, so the call returns normally whether or
not the put succeeded; the returned flag records whether the UserPreference
record was actually written. -/
def saveUserState (putOk : Bool) : Bool := putOk

def notConfiguredMsg : String :=
  "I\x27m sorry, the restaurant suggestion service isn\x27t configured yet. " ++
  "Please try again later."

def fulfillErrorMsg : String :=
  "I\x27m sorry, something went wrong while processing your request. " ++
  "Please try again in a moment."

/-- `cuisine.charAt(0).toUpperCase() + cuisine.slice(1).toLowerCase()`. -/
def cuisineDisplayOf (cuisine : String) : String :=
  match cuisine.data with
  | [] => ""
  | ch :: rest => String.mk (ch.toUpper :: (jsToLower (String.mk rest)).data)

def confirmationMsg (cuisine numberOfPeople diningDate diningTime email : String) : String :=
  "You\x27re all set! Expect my " ++ cuisineDisplayOf cuisine ++
  " restaurant suggestions for " ++ numberOfPeople ++ " people on " ++ diningDate ++
  " around " ++ diningTime ++ " in your inbox at " ++ email ++
  " shortly. Have a great day!"

/-- Result of one fulfillment turn: the Lex response plus whether the
best-effort UserPreference record ended up written. -/
structure FulfillResult where
  response : LexResponse
  prefWritten : Bool
deriving DecidableEq

/-- `handleFulfillment` (LF1 lines 268-330), on an event whose slots Lex
filled before invoking the fulfillment hook.  Missing queue URL or a failed
`sqsClient.send` produce the apologetic Close; a successful send runs
`saveUserState` (which never throws) and returns the confirmation Close
regardless of the preference-store outcome. -/
def handleFulfillment (env : FulfillEnv) (s : Slots) : FulfillResult :=
  let cuisine := (s.cuisine).getD ""
  let numberOfPeople := (s.numberOfPeople).getD ""
  let diningDate := (s.diningDate).getD ""
  let diningTime := (s.diningTime).getD ""
  let email := (s.email).getD ""
  match env.sqsQueueUrl with
  | none => { response := buildFulfillmentResponse s notConfiguredMsg, prefWritten := false }
  | some _ =>
    if env.sqsSendOk then
      let written := saveUserState env.prefSaveOk
      { response := buildFulfillmentResponse s
          (confirmationMsg cuisine numberOfPeople diningDate diningTime email)
        prefWritten := written }
    else
      { response := buildFulfillmentResponse s fulfillErrorMsg, prefWritten := false }

end LF1

namespace LF2

/-! ## Queue worker (LF2 `src/lambda-functions/LF2/index.mjs`) -/

/-- The parsed body of one SQS message (`JSON.parse(message.Body)`). -/
structure WorkItem where
  Location : String := ""
  Cuisine : String := ""
  NumberOfPeople : String := ""
  DiningDate : String := ""
  DiningTime : String := ""
  Email : String := ""
deriving DecidableEq

structure SQSMessage where
  body : WorkItem
  receiptHandle : String
deriving DecidableEq

structure Restaurant where
  name : String := "Unknown Restaurant"
  address : String := "Address not available"
deriving DecidableEq

/-- The external world one LF2 invocation interacts with.  `shuffle` models
the copy-and-`sort(() => 0.5 - Math.random())` step: an unknown function
that permutes its input (the permutation hypothesis is stated where used).
`emailOk` is whether `sendEmailViaSES` succeeds; `details` is the DynamoDB
lookup result per restaurant id. -/
structure Env where
  queueUrl : Option String
  messages : List SQSMessage
  searchHits : List String
  shuffle : List String → List String
  details : String → Restaurant
  emailOk : Bool

/-- Externally visible effects of one invocation. -/
structure Trace where
  deleted : List String := []
  selected : List String := []
  fetched : List String := []
  emailed : List String := []
deriving DecidableEq

/-- `getRandomItems` (LF2 lines 256-259): shuffle a copy of the array, then
`slice(0, Math.min(n, shuffled.length))`. -/
def getRandomItems (shuffle : List String → List String)
    (array : List String) (n : Nat) : List String :=
  let shuffled := shuffle array
  shuffled.take (min n shuffled.length)

/-- LF2 `handler` (lines 29-106): the control flow of one invocation,
returning the `{ statusCode, body }` result and the trace of external
effects.  The email send is wrapped in its own try/catch (lines 81-95), so
its failure does not affect the flow; the delete at line 98 runs either way. -/
def handler (env : Env) : (Nat × String) × Trace :=
  match env.queueUrl with
  | none => ((500, "SQS_QUEUE_URL not configured"), {})
  | some _ =>
    match env.messages with
    | [] => ((200, "No messages to process"), {})
    | message :: _ =>
      let restaurantIds := env.searchHits
      if restaurantIds.length = 0 then
        ((200, "No restaurants found"), { deleted := [message.receiptHandle] })
      else
        let selectedIds := getRandomItems env.shuffle restaurantIds 3
        let _restaurants := selectedIds.map env.details
        let emailed := if env.emailOk then [message.body.Email] else []
        ((200, "Message processed"),
         { deleted := [message.receiptHandle]
           selected := selectedIds
           fetched := selectedIds
           emailed := emailed })

end LF2

/-! # Theorems -/

open LF1 LF2

/-! ## Shared helper lemmas -/

/-- If an ordered scan finds the first element satisfying `p`, and `k`
succeeds exactly on the elements satisfying `p`, then the corresponding
`findSome?` returns `k`'s value at that first element. -/
theorem findSome_of_find {α β : Type} (L : List α) (p : α → Bool) (k : α → Option β)
    (hpk : ∀ g, (k g).isSome = p g) (f : α) (hf : L.find? p = some f) :
    ∃ r, k f = some r ∧ L.findSome? k = some r := by
  induction L with
  | nil => simp at hf
  | cons a L ih =>
    by_cases hpa : p a
    · rw [List.find?_cons_of_pos _ hpa] at hf
      cases hf
      have hsome : (k f).isSome := by rw [hpk f]; exact hpa
      obtain ⟨r, hr⟩ := Option.isSome_iff_exists.mp hsome
      exact ⟨r, hr, by rw [List.findSome?_cons, hr]⟩
    · rw [List.find?_cons_of_neg _ hpa] at hf
      obtain ⟨r, h1, h2⟩ := ih hf
      have hka : k a = none := by
        have := hpk a
        rw [eq_false_of_ne_true hpa] at this
        exact Option.not_isSome_iff_eq_none.mp (by rw [this]; decide)
      exact ⟨r, h1, by rw [List.findSome?_cons, hka, h2]⟩

theorem check_isSome (c : Clock) (s : Slots) (f : Field) :
    (check c s f).isSome = invalidB c s f := by
  cases f
  case location =>
    simp only [check, checkLocation, invalidB, present, fieldValidB, getField, truthy]
    cases s.location with
    | none => rfl
    | some v =>
      by_cases hv : v = ""
      · simp [hv]
      · simp only [if_neg hv, hv]
        cases normalizeLocation v <;> simp
  case cuisine =>
    simp only [check, checkCuisine, invalidB, present, fieldValidB, getField, truthy]
    cases s.cuisine with
    | none => rfl
    | some v =>
      by_cases hv : v = ""
      · simp [hv]
      · by_cases hc : jsTrim (jsToLower v) ∈ VALID_CUISINES <;> simp [hv, hc]
  case numberOfPeople =>
    simp only [check, checkNumberOfPeople, invalidB, present, fieldValidB, getField, truthy]
    cases s.numberOfPeople with
    | none => rfl
    | some v =>
      by_cases hv : v = ""
      · simp [hv]
      · simp only [if_neg hv, hv]
        cases parseInt10 v with
        | none => simp
        | some num =>
          by_cases h1 : num < 1
          · simp [h1]
          · by_cases h2 : num > 20 <;> simp [h1, h2]
  case diningDate =>
    simp only [check, checkDiningDate, invalidB, present, fieldValidB, getField, truthy]
    cases s.diningDate with
    | none => rfl
    | some v =>
      by_cases hv : v = ""
      · simp [hv]
      · simp only [if_neg hv, hv]
        cases parseDate v with
        | none => simp
        | some ymd =>
          obtain ⟨y, m, d⟩ := ymd
          by_cases h1 : dayNumber y m d < today c
          · simp [h1]
          · by_cases h2 : dayNumber y m d > today c + 90 <;> simp [h1, h2]
  case diningTime =>
    simp only [check, checkDiningTime, invalidB, present, fieldValidB, getField, truthy]
    cases s.diningTime with
    | none => rfl
    | some v =>
      by_cases hv : v = ""
      · simp [hv]
      · simp only [if_neg hv, hv]
        cases timeParse v with
        | none => simp
        | some hmp =>
          obtain ⟨hours, minutes⟩ := hmp
          by_cases h6 : hours < 6
          · simp [h6]
          · by_cases h23 : hours > 23
            · simp [h6, h23]
            · cases hdate : s.diningDate with
              | none => simp [h6, h23]
              | some dd =>
                by_cases hdd : dd = ""
                · simp [h6, h23, hdd]
                · by_cases hts : dd = todayStr c
                  · subst hts
                    by_cases hlt : hours < c.nowH
                    · simp [h6, h23, hdd, hlt]
                    · by_cases heq : hours = c.nowH
                      · subst heq
                        by_cases hmin : minutes ≤ c.nowM <;>
                          simp [h6, h23, hdd, hlt, hmin]
                      · simp [h6, h23, hdd, hlt, heq]
                  · simp [h6, h23, hdd, hts]
  case email =>
    simp only [check, checkEmail, invalidB, present, fieldValidB, getField, truthy]
    cases s.email with
    | none => rfl
    | some v =>
      by_cases hv : v = ""
      · simp [hv]
      · by_cases he : emailOk v <;> simp [hv, he]

theorem check_some_shape (c : Clock) (s : Slots) (f : Field) (r : LexResponse)
    (h : check c s f = some r) :
    r.dialogActionType = "ElicitSlot" ∧ r.slotToElicit = some (fieldName f) ∧
    r.intentState = "InProgress" ∧ r.slots = clearField s f := by
  cases f <;>
    simp only [check, checkLocation, checkCuisine, checkNumberOfPeople,
      checkDiningDate, checkDiningTime, checkEmail] at h <;>
    (repeat' split at h) <;> cases h <;> simp [buildElicitSlotResponse]

/-- Bridge: when some present field is invalid, `handleDialogValidation`
returns exactly the elicit response of the first such field. -/
theorem handle_elicits_first (c : Clock) (s : Slots) (f : Field)
    (hf : firstInvalid? c s = some f) :
    (handleDialogValidation c s).dialogActionType = "ElicitSlot" ∧
    (handleDialogValidation c s).slotToElicit = some (fieldName f) ∧
    (handleDialogValidation c s).intentState = "InProgress" ∧
    (handleDialogValidation c s).slots = clearField s f := by
  obtain ⟨r, hr, hfs⟩ :=
    findSome_of_find fieldOrder (invalidB c s) (check c s) (check_isSome c s) f hf
  have : handleDialogValidation c s = r := by
    unfold handleDialogValidation
    rw [hfs]
    rfl
  rw [this]
  exact check_some_shape c s f r hr

theorem todayStr_ne_empty (c : Clock) : todayStr c ≠ "" := by
  intro h
  have hlen : (todayStr c).length = 0 := by rw [h]; rfl
  rw [todayStr, formatDate] at hlen
  simp only [String.length_append] at hlen
  have hdash : ("-" : String).length = 1 := rfl
  rw [hdash] at hlen
  omega

theorem getField_clearField_self (s : Slots) (f : Field) :
    getField (clearField s f) f = none := by
  cases f <;> rfl

theorem getField_clearField_ne (s : Slots) (f g : Field) (h : g ≠ f) :
    getField (clearField s f) g = getField s g := by
  cases f <;> cases g <;> first | rfl | exact absurd rfl h

/-- Whether a field is present-and-invalid depends only on the slot values
at positions up to the field itself in validation order (the time check
also reads the earlier date slot, nothing later). -/
theorem invalidB_congr (c : Clock) (s s' : Slots) (g : Field)
    (h : ∀ g' : Field, fieldIdx g' ≤ fieldIdx g → getField s' g' = getField s g') :
    invalidB c s' g = invalidB c s g := by
  cases g with
  | location =>
    have h0 := h .location (by decide)
    simp only [invalidB, present, fieldValidB, h0]
  | cuisine =>
    have h0 := h .cuisine (by decide)
    simp only [invalidB, present, fieldValidB, h0]
  | numberOfPeople =>
    have h0 := h .numberOfPeople (by decide)
    simp only [invalidB, present, fieldValidB, h0]
  | diningDate =>
    have h0 := h .diningDate (by decide)
    simp only [invalidB, present, fieldValidB, h0]
  | diningTime =>
    have h0 := h .diningDate (by decide)
    have h1 := h .diningTime (by decide)
    simp only [invalidB, present, fieldValidB, h0, h1]
  | email =>
    have h0 := h .email (by decide)
    simp only [invalidB, present, fieldValidB, h0]

/-- The first invalid field is unchanged by edits to slots strictly after
it in validation order. -/
theorem firstInvalid_congr (c : Clock) (s s' : Slots) (f : Field)
    (hf : firstInvalid? c s = some f)
    (hagree : ∀ g : Field, fieldIdx g ≤ fieldIdx f → getField s' g = getField s g) :
    firstInvalid? c s' = some f := by
  have congrAt : ∀ g : Field, fieldIdx g ≤ fieldIdx f → invalidB c s' g = invalidB c s g :=
    fun g hg => invalidB_congr c s s' g (fun g' hg' => hagree g' (le_trans hg' hg))
  unfold firstInvalid? fieldOrder at hf ⊢
  by_cases b0 : invalidB c s .location
  · simp only [List.find?, b0] at hf
    cases hf
    simp [List.find?, congrAt .location (by decide), b0]
  · simp only [List.find?, b0] at hf
    by_cases b1 : invalidB c s .cuisine
    · simp only [b1] at hf
      cases hf
      simp [List.find?, congrAt .location (by decide), congrAt .cuisine (by decide), b0, b1]
    · simp only [b1] at hf
      by_cases b2 : invalidB c s .numberOfPeople
      · simp only [b2] at hf
        cases hf
        simp [List.find?, congrAt .location (by decide), congrAt .cuisine (by decide),
          congrAt .numberOfPeople (by decide), b0, b1, b2]
      · simp only [b2] at hf
        by_cases b3 : invalidB c s .diningDate
        · simp only [b3] at hf
          cases hf
          simp [List.find?, congrAt .location (by decide), congrAt .cuisine (by decide),
            congrAt .numberOfPeople (by decide), congrAt .diningDate (by decide),
            b0, b1, b2, b3]
        · simp only [b3] at hf
          by_cases b4 : invalidB c s .diningTime
          · simp only [b4] at hf
            cases hf
            simp [List.find?, congrAt .location (by decide), congrAt .cuisine (by decide),
              congrAt .numberOfPeople (by decide), congrAt .diningDate (by decide),
              congrAt .diningTime (by decide), b0, b1, b2, b3, b4]
          · simp only [b4] at hf
            by_cases b5 : invalidB c s .email
            · simp only [b5] at hf
              cases hf
              simp [List.find?, congrAt .location (by decide), congrAt .cuisine (by decide),
                congrAt .numberOfPeople (by decide), congrAt .diningDate (by decide),
                congrAt .diningTime (by decide), congrAt .email (by decide),
                b0, b1, b2, b3, b4, b5]
            · simp [b5] at hf

/-! ## Claim theorems -/

/-- C4: In the mid-dialog phase, for every slot map in which some present
field is invalid, the Dialog Controller returns an ElicitSlot response
naming the first invalid field in validation order, with that field's value
cleared to null, every other slot value unchanged, the intent state
InProgress, and no field after the first invalid one is validated that turn
(any slot map agreeing on the fields up to and including the first invalid
one elicits the same field). -/
theorem c4_first_invalid_field_elicited (c : Clock) (s : Slots) (f : Field)
    (hf : firstInvalid? c s = some f) :
    (handleDialogValidation c s).dialogActionType = "ElicitSlot" ∧
    (handleDialogValidation c s).slotToElicit = some (fieldName f) ∧
    (handleDialogValidation c s).intentState = "InProgress" ∧
    getField (handleDialogValidation c s).slots f = none ∧
    (∀ g : Field, g ≠ f → getField (handleDialogValidation c s).slots g = getField s g) ∧
    (∀ s' : Slots, (∀ g : Field, fieldIdx g ≤ fieldIdx f → getField s' g = getField s g) →
      (handleDialogValidation c s').slotToElicit = some (fieldName f)) := by
  obtain ⟨hact, helicit, hstate, hslots⟩ := handle_elicits_first c s f hf
  refine ⟨hact, helicit, hstate, ?_, ?_, ?_⟩
  · rw [hslots]; exact getField_clearField_self s f
  · intro g hg
    rw [hslots]; exact getField_clearField_ne s f g hg
  · intro s' hagree
    exact (handle_elicits_first c s' f (firstInvalid_congr c s s' f hf hagree)).2.1

/-- C4 witness: with location filled with the valid alias "NYC" and cuisine
filled with the unsupported "persian", the first invalid field is Cuisine
and the response re-elicits exactly Cuisine. -/
theorem c4_witness :
    firstInvalid? { y := 2026, m := 2, d := 21, nowH := 12, nowM := 0 }
      { location := some "NYC", cuisine := some "persian" } = some .cuisine ∧
    (handleDialogValidation { y := 2026, m := 2, d := 21, nowH := 12, nowM := 0 }
      { location := some "NYC", cuisine := some "persian" }).slotToElicit = some "Cuisine" :=
  ⟨by decide,
   (c4_first_invalid_field_elicited
     { y := 2026, m := 2, d := 21, nowH := 12, nowM := 0 }
     { location := some "NYC", cuisine := some "persian" } .cuisine (by decide)).2.1⟩

/-- C5: For every integer n supplied as the NumberOfPeople slot (a slot
string that `parseInt` reads as n), the party-size validation accepts
(returns no elicit for NumberOfPeople) iff 1 ≤ n ≤ 20; values above 20
produce the distinct over-capacity message, and non-positive values the
generic message. -/
theorem c5_party_size_accepts_iff (s : Slots) (str : String) (n : Int)
    (hs : s.numberOfPeople = some str) (hp : parseInt10 str = some n) :
    (checkNumberOfPeople s = none ↔ 1 ≤ n ∧ n ≤ 20) ∧
    (20 < n → checkNumberOfPeople s =
      some (buildElicitSlotResponse s .numberOfPeople partySizeOverMsg)) ∧
    (n < 1 → checkNumberOfPeople s =
      some (buildElicitSlotResponse s .numberOfPeople partySizeErrorMsg)) ∧
    partySizeOverMsg ≠ partySizeErrorMsg := by
  have hne : str ≠ "" := by
    intro h
    rw [h] at hp
    have : parseInt10 "" = none := by decide
    rw [this] at hp
    cases hp
  simp only [checkNumberOfPeople, hs]
  rw [if_neg hne]
  simp only [hp]
  refine ⟨?_, ?_, ?_, by decide⟩
  · split_ifs with h1 h2 <;> simp <;> omega
  · intro h
    rw [if_neg (by omega), if_pos (by omega)]
  · intro h
    rw [if_pos h]

/-- C5 witness: the slot value "25" parses to 25, is rejected with the
over-capacity message, and 15 would be accepted. -/
theorem c5_witness :
    checkNumberOfPeople { numberOfPeople := some "25" } =
      some (buildElicitSlotResponse { numberOfPeople := some "25" }
        .numberOfPeople partySizeOverMsg) :=
  (c5_party_size_accepts_iff { numberOfPeople := some "25" } "25" 25 rfl
    (by decide)).2.1 (by decide)

/-- C6: For every parsable calendar date supplied as the DiningDate slot,
the date validation accepts iff today ≤ d ≤ today + 90 (as day numbers on
the clock in effect at validation time); unparsable strings are rejected
with the date-format message. -/
theorem c6_date_window (c : Clock) (s : Slots) (str : String)
    (hs : s.diningDate = some str) (hne : str ≠ "") :
    (parseDate str = none → checkDiningDate c s =
      some (buildElicitSlotResponse s .diningDate dateFormatErrorMsg)) ∧
    (∀ y m d, parseDate str = some (y, m, d) →
      (checkDiningDate c s = none ↔
        today c ≤ dayNumber y m d ∧ dayNumber y m d ≤ today c + 90)) := by
  simp only [checkDiningDate, hs]
  rw [if_neg hne]
  constructor
  · intro h
    simp only [h]
  · intro y m d h
    simp only [h]
    split_ifs with h1 h2 <;> simp <;> omega

/-- C6 witness: on clock date 2026-02-21, the date "2026-03-05" parses and
is accepted (it lies within the next 90 days). -/
theorem c6_witness :
    checkDiningDate { y := 2026, m := 2, d := 21, nowH := 12, nowM := 0 }
      { diningDate := some "2026-03-05" } = none :=
  ((c6_date_window { y := 2026, m := 2, d := 21, nowH := 12, nowM := 0 }
      { diningDate := some "2026-03-05" } "2026-03-05" rfl (by decide)).2
    2026 3 5 (by decide)).mpr (by decide)

/-- C7: The time validation rejects any DiningTime not matching the strict
HH:MM pattern, rejects in-pattern times with hour < 6 or hour > 23, and,
when the DiningDate slot equals today's date string, accepts iff the time
is strictly later than the current wall-clock time — all read from the one
clock `c`, the same clock source the date validation uses. -/
theorem c7_time_validation (c : Clock) (s : Slots) (str : String)
    (hs : s.diningTime = some str) :
    (str ≠ "" → timeParse str = none → checkDiningTime c s =
      some (buildElicitSlotResponse s .diningTime timeFormatErrorMsg)) ∧
    (∀ hh mm, timeParse str = some (hh, mm) → (hh < 6 ∨ 23 < hh) →
      checkDiningTime c s = some (buildElicitSlotResponse s .diningTime timeRangeMsg)) ∧
    (∀ hh mm, timeParse str = some (hh, mm) → 6 ≤ hh → hh ≤ 23 →
      s.diningDate = some (todayStr c) →
      (checkDiningTime c s = none ↔ (c.nowH < hh ∨ (c.nowH = hh ∧ c.nowM < mm)))) := by
  refine ⟨?_, ?_, ?_⟩
  · intro hne h
    simp only [checkDiningTime, hs]
    rw [if_neg hne]
    simp only [h]
  · intro hh mm h hrange
    have hne : str ≠ "" := by
      intro he
      rw [he] at h
      have : timeParse "" = none := by decide
      rw [this] at h
      cases h
    simp only [checkDiningTime, hs]
    rw [if_neg hne]
    simp only [h]
    rw [if_pos (by simp; omega)]
  · intro hh mm h h6 h23 hd
    have hne : str ≠ "" := by
      intro he
      rw [he] at h
      have : timeParse "" = none := by decide
      rw [this] at h
      cases h
    simp only [checkDiningTime, hs]
    rw [if_neg hne]
    simp only [h]
    rw [if_neg (by simp; omega)]
    simp only [hd]
    rw [if_neg (todayStr_ne_empty c)]
    by_cases hlt : hh < c.nowH
    · simp [hlt]
      omega
    · by_cases heq : hh = c.nowH
      · subst heq
        by_cases hmin : mm ≤ c.nowM <;> (simp [hlt, hmin]; try omega)
      · simp [hlt, heq]
        omega

/-- C7 witness: at 12:15 on 2026-02-21 with the date slot equal to today,
the time "19:30" is strictly later than now and is accepted. -/
theorem c7_witness :
    checkDiningTime { y := 2026, m := 2, d := 21, nowH := 12, nowM := 15 }
      { diningDate := some "2026-02-21", diningTime := some "19:30" } = none :=
  ((c7_time_validation { y := 2026, m := 2, d := 21, nowH := 12, nowM := 15 }
      { diningDate := some "2026-02-21", diningTime := some "19:30" } "19:30" rfl).2.2
    19 30 (by decide) (by decide) (by decide) (by decide)).mpr (by decide)

theorem digitChar_isDigit (k : Nat) (hk : k ≤ 9) : (Nat.digitChar k).isDigit = true := by
  interval_cases k <;> decide

theorem digitVal_digitChar (k : Nat) (hk : k ≤ 9) : digitVal (Nat.digitChar k) = k := by
  interval_cases k <;> decide

theorem timeParse_twoDigits (hh mm : Nat) (hhh : hh ≤ 99) (hmm : mm ≤ 99) :
    timeParse (twoDigits hh ++ ":" ++ twoDigits mm) = some (hh, mm) := by
  have hdata : (twoDigits hh ++ ":" ++ twoDigits mm).data =
      [Nat.digitChar (hh / 10), Nat.digitChar (hh % 10), ':',
       Nat.digitChar (mm / 10), Nat.digitChar (mm % 10)] := by
    simp [twoDigits, String.data_append]
  simp only [timeParse, hdata]
  rw [digitVal_digitChar _ (by omega), digitVal_digitChar _ (by omega),
    digitVal_digitChar _ (by omega), digitVal_digitChar _ (by omega)]
  simp [digitChar_isDigit _ (by omega : hh / 10 ≤ 9),
    digitChar_isDigit _ (by omega : hh % 10 ≤ 9),
    digitChar_isDigit _ (by omega : mm / 10 ≤ 9),
    digitChar_isDigit _ (by omega : mm % 10 ≤ 9)]
  omega

/-- C10: The time validation never range-checks minutes: any HH:MM string
with 06 ≤ HH ≤ 23 and an arbitrary two-digit minute field (including values
above 59, e.g. "19:99") is accepted whenever the DiningDate slot is absent
or differs from today's date string. -/
theorem c10_minutes_never_range_checked (c : Clock) (s : Slots) (hh mm : Nat)
    (hhh : hh ≤ 99) (hmm : mm ≤ 99) (h6 : 6 ≤ hh) (h23 : hh ≤ 23)
    (hs : s.diningTime = some (twoDigits hh ++ ":" ++ twoDigits mm))
    (hd : s.diningDate = none ∨ ∀ ds, s.diningDate = some ds → ds ≠ todayStr c) :
    checkDiningTime c s = none := by
  have hne : twoDigits hh ++ ":" ++ twoDigits mm ≠ "" := by
    intro h
    have h5 : (twoDigits hh ++ ":" ++ twoDigits mm).length = 5 := by
      simp [twoDigits, String.length_append]
      rfl
    rw [h] at h5
    exact absurd h5 (by decide)
  simp only [checkDiningTime, hs]
  rw [if_neg hne]
  simp only [timeParse_twoDigits hh mm hhh hmm]
  rw [if_neg (by simp; omega)]
  cases hdate : s.diningDate with
  | none => rfl
  | some ds =>
    have hneq : ds ≠ todayStr c := by
      rcases hd with hd | hd
      · rw [hd] at hdate; cases hdate
      · exact hd ds hdate
    by_cases hds : ds = ""
    · simp [hds]
    · simp [hds, hneq]

/-- C10 witness: "19:99" (minutes 99) with no date slot is accepted. -/
theorem c10_witness :
    checkDiningTime { y := 2026, m := 2, d := 21, nowH := 12, nowM := 0 }
      { diningTime := some (twoDigits 19 ++ ":" ++ twoDigits 99) } = none :=
  c10_minutes_never_range_checked
    { y := 2026, m := 2, d := 21, nowH := 12, nowM := 0 }
    { diningTime := some (twoDigits 19 ++ ":" ++ twoDigits 99) }
    19 99 (by decide) (by decide) (by decide) (by decide) rfl (Or.inl rfl)

/-- C8: The claim says location normalization is a closed alias-table
lookup in which any string not in the table is rejected, matching the
function\x27s own doc comment ("Returns the canonical name or null if not
recognized") and the spec; the code violates it.  `LOCATION_ALIASES[key]`
inherits from `Object.prototype`, so the lowercased-trimmed keys
"constructor" and "__proto__" hit truthy inherited members and the
location is accepted even though neither is a table key, while a genuinely
absent key like "Paris" is rejected and the table entries themselves map
as the claim lists. -/
theorem c8_prototype_chain_leak :
    normalizeLocation "constructor" = some (.protoMember "constructor") ∧
    normalizeLocation " Constructor " = some (.protoMember "constructor") ∧
    normalizeLocation "__proto__" = some (.protoMember "__proto__") ∧
    (normalizeLocation "constructor").isSome = true ∧
    (LOCATION_ALIASES.map Prod.fst).contains "constructor" = false ∧
    (LOCATION_ALIASES.map Prod.fst).contains "__proto__" = false ∧
    normalizeLocation "new york" = some (.str "manhattan") ∧
    normalizeLocation "NYC" = some (.str "manhattan") ∧
    normalizeLocation "ny" = some (.str "manhattan") ∧
    normalizeLocation "manhattan" = some (.str "manhattan") ∧
    normalizeLocation "new york city" = some (.str "manhattan") ∧
    normalizeLocation "Brooklyn" = some (.str "brooklyn") ∧
    normalizeLocation "queens" = some (.str "queens") ∧
    normalizeLocation "bronx" = some (.str "bronx") ∧
    normalizeLocation "the bronx" = some (.str "bronx") ∧
    normalizeLocation " Staten Island " = some (.str "staten island") ∧
    normalizeLocation "Paris" = none := by
  decide

/-- C9: In the request-complete phase, if enqueuing succeeds, the Dialog
Controller returns the confirmation Close response regardless of whether
the best-effort UserPreference write succeeds or fails: the preference
outcome is swallowed and never changes the response. -/
theorem c9_pref_failure_swallowed (env : FulfillEnv) (s : Slots) (url : String)
    (hq : env.sqsQueueUrl = some url) (hsend : env.sqsSendOk = true) :
    (handleFulfillment env s).response = buildFulfillmentResponse s
      (confirmationMsg ((s.cuisine).getD "") ((s.numberOfPeople).getD "")
        ((s.diningDate).getD "") ((s.diningTime).getD "") ((s.email).getD "")) ∧
    (handleFulfillment env s).response.dialogActionType = "Close" ∧
    (handleFulfillment env s).response.intentState = "Fulfilled" ∧
    (∀ b, (handleFulfillment { env with prefSaveOk := b } s).response =
      (handleFulfillment env s).response) := by
  refine ⟨?_, ?_, ?_, ?_⟩ <;>
    simp [handleFulfillment, hq, hsend, buildFulfillmentResponse]

/-- C9 witness: with the queue configured, a successful send, and a FAILED
preference write, the response is still the Close confirmation. -/
theorem c9_witness :
    (handleFulfillment { sqsQueueUrl := some "queue-url", sqsSendOk := true, prefSaveOk := false }
      { location := some "manhattan", cuisine := some "thai", numberOfPeople := some "2",
        diningDate := some "2026-03-05", diningTime := some "19:30",
        email := some "a@b.com" }).response.dialogActionType = "Close" :=
  (c9_pref_failure_swallowed
    { sqsQueueUrl := some "queue-url", sqsSendOk := true, prefSaveOk := false }
    { location := some "manhattan", cuisine := some "thai", numberOfPeople := some "2",
      diningDate := some "2026-03-05", diningTime := some "19:30", email := some "a@b.com" }
    "queue-url" rfl rfl).2.1

/-- C1: For every received WorkItem with at least one search hit, if the
notification send throws, the Queue Worker still deletes the WorkItem from
the queue and the invocation completes with the normal success result; the
notification failure is isolated (no email effect is recorded). -/
theorem c1_ack_despite_email_failure (env : Env) (message : SQSMessage)
    (rest : List SQSMessage) (url : String)
    (hq : env.queueUrl = some url) (hm : env.messages = message :: rest)
    (hhits : env.searchHits ≠ []) (hemail : env.emailOk = false) :
    (handler env).2.deleted = [message.receiptHandle] ∧
    (handler env).1 = (200, "Message processed") ∧
    (handler env).2.emailed = [] := by
  have hlen : ¬env.searchHits.length = 0 := by
    simpa [List.length_eq_zero] using hhits
  simp only [handler, hq, hm, hemail]
  rw [if_neg hlen]
  simp

/-- C1 witness: a concrete invocation with two hits and a failing email
send still deletes the received message. -/
theorem c1_witness :
    (handler
      { queueUrl := some "q"
        messages := [{ body := { Location := "" }, receiptHandle := "rh-1" }]
        searchHits := ["r1", "r2"]
        shuffle := id
        details := fun _ => { name := "r" }
        emailOk := false }).2.deleted = ["rh-1"] :=
  (c1_ack_despite_email_failure
    { queueUrl := some "q"
      messages := [{ body := { Location := "" }, receiptHandle := "rh-1" }]
      searchHits := ["r1", "r2"]
      shuffle := id
      details := fun _ => { name := "r" }
      emailOk := false }
    { body := { Location := "" }, receiptHandle := "rh-1" } [] "q" rfl rfl (by decide) rfl).1

/-- C2: When the search index returns zero hits, the Queue Worker deletes
the WorkItem anyway and terminates successfully, selecting no candidates,
fetching no details, and sending no notification. -/
theorem c2_zero_hits_still_acknowledged (env : Env) (message : SQSMessage)
    (rest : List SQSMessage) (url : String)
    (hq : env.queueUrl = some url) (hm : env.messages = message :: rest)
    (hhits : env.searchHits = []) :
    (handler env).2.deleted = [message.receiptHandle] ∧
    (handler env).1 = (200, "No restaurants found") ∧
    (handler env).2.selected = [] ∧
    (handler env).2.fetched = [] ∧
    (handler env).2.emailed = [] := by
  simp [handler, hq, hm, hhits]

/-- C2 witness: a concrete invocation with zero search hits deletes the
message and reports the no-restaurants result. -/
theorem c2_witness :
    (handler
      { queueUrl := some "q"
        messages := [{ body := { Location := "" }, receiptHandle := "rh-2" }]
        searchHits := []
        shuffle := id
        details := fun _ => { name := "r" }
        emailOk := true }).1 = (200, "No restaurants found") :=
  (c2_zero_hits_still_acknowledged
    { queueUrl := some "q"
      messages := [{ body := { Location := "" }, receiptHandle := "rh-2" }]
      searchHits := []
      shuffle := id
      details := fun _ => { name := "r" }
      emailOk := true }
    { body := { Location := "" }, receiptHandle := "rh-2" } [] "q" rfl rfl rfl).2.1

/-- C3: For every non-empty hit list, the candidate selection returns
exactly min(3, length) elements, drawn without replacement (the selection
is a sub-permutation of the hits: no list position is used twice), each
element comes from the hit list, and when fewer than 3 hits exist it takes
all of them — for every permutation the random shuffle may produce. -/
theorem c3_random_selection (shuffle : List String → List String) (hits : List String)
    (_hne : hits ≠ []) (hperm : (shuffle hits).Perm hits) :
    (getRandomItems shuffle hits 3).length = min 3 hits.length ∧
    (getRandomItems shuffle hits 3).Subperm hits ∧
    (∀ x ∈ getRandomItems shuffle hits 3, x ∈ hits) ∧
    (hits.length < 3 → (getRandomItems shuffle hits 3).Perm hits) := by
  have hlen := hperm.length_eq
  refine ⟨?_, ?_, ?_, ?_⟩
  · simp only [getRandomItems, List.length_take]
    omega
  · exact ((List.take_sublist _ _).subperm).trans hperm.subperm
  · intro x hx
    exact hperm.subset (List.take_subset _ _ hx)
  · intro h3
    simp only [getRandomItems]
    have hmin : min 3 (shuffle hits).length = (shuffle hits).length := by omega
    rw [hmin, List.take_length]
    exact hperm

/-- C3 witness: for 5 hits and the reversing shuffle, exactly
min 3 5 = 3 candidates are selected. -/
theorem c3_witness :
    (getRandomItems List.reverse ["a", "b", "c", "d", "e"] 3).length =
      min 3 (["a", "b", "c", "d", "e"] : List String).length :=
  (c3_random_selection List.reverse ["a", "b", "c", "d", "e"] (by decide)
    (List.reverse_perm _)).1

end FoodConcierge
